import Mathlib

/-!
Shallow embedding of the LSH hash-engine surface declared in `src/lsh.h`
(Crypto++ LSH-224/256/384/512/512-256).  The header declares two base
classes (`LSH256_Base`, `LSH512_Base`) with `Restart`, `Update`,
`TruncatedFinal`, `BlockSize`, `DigestSize`, and five leaf classes fixing
an algorithm type code and a digest size.  The method bodies (the
streaming buffer manager, the padding/finalization step and the transform
core) live in the implementation files that are not part of the available
source, so they are modelled here from the specification document; each
such definition carries a doc comment starting `Modelled from the spec:`.
The transform core and the per-variant constant tables (IVs, step
constants) are externally specified data per the spec, so they appear as
parameters of a `Variant` record rather than as concrete tables.
-/

namespace CryptoPP

/-- Error taxonomy of the spec (section 7): configuration errors are raised
eagerly at construction/restart, misuse errors on out-of-sequence calls. -/
inductive HashError where
  | ConfigurationError
  | MisuseError
deriving DecidableEq, Repr

/-- Equality of fallible results is decidable when it is on both sides. -/
instance {ε α : Type} [DecidableEq ε] [DecidableEq α] : DecidableEq (Except ε α) :=
  fun a b =>
    match a, b with
    | Except.ok x, Except.ok y =>
      if h : x = y then Decidable.isTrue (by rw [h])
      else Decidable.isFalse (fun hc => h (Except.ok.inj hc))
    | Except.error x, Except.error y =>
      if h : x = y then Decidable.isTrue (by rw [h])
      else Decidable.isFalse (fun hc => h (Except.error.inj hc))
    | Except.ok _, Except.error _ => Decidable.isFalse (fun hc => Except.noConfusion hc)
    | Except.error _, Except.ok _ => Decidable.isFalse (fun hc => Except.noConfusion hc)

/-- Modelled from the spec: the engine state of section 3.  `cv` holds the
double-pipe chaining words (`cv_l ++ cv_r` of `m_state`), `buffer` the
pending not-yet-processed input bytes (`last_block` area of `m_state`),
`bitLen` the 32-bit running bit counter (`m_remainingBitLength`, a
`word32` in `src/lsh.h`), `algType`/`digestSize` the constructor-fixed
`m_algType`/`m_digestSize`.  `blocks` is a ghost counter of transform-core
invocations and `finalized` the lifecycle flag making `finalize` one-shot;
both are modelled from the spec since the implementation file is absent. -/
structure HashState where
  cv : List Nat
  buffer : List Nat
  bitLen : Nat
  blocks : Nat
  finalized : Bool
  algType : Nat
  digestSize : Nat
deriving DecidableEq, Repr

/-- Modelled from the spec: the externally specified data of one variant
(section 4.4 and section 1: round constants and IVs are external data, the
design specifies how they are used, not their values).  `compress` is the
transform core of section 4.1 (pure function of previous chaining state and
one full block), `fold` the zero-message finalization fold, with the
spec invariant that the folded state is 8 words wide and the maximum
digest fits the folded output width. -/
structure Variant where
  wordBytes : Nat
  blockSize : Nat
  blockSize_pos : 0 < blockSize
  iv : List Nat
  compress : List Nat → List Nat → List Nat
  fold : List Nat → List Nat
  fold_length : ∀ cv, (fold cv).length = 8
  maxDigestSize : Nat
  maxDigest_le : maxDigestSize ≤ 8 * wordBytes

/-- Little-endian byte serialization of one machine word (`n` bytes). -/
def leBytes : Nat → Nat → List Nat
  | 0, _ => []
  | n + 1, w => (w % 256) :: leBytes n (w / 256)

/-- Little-endian serialization of a word array (spec section 4.3:
little-endian word layout of the folded chaining state). -/
def wordsToBytesLE (wb : Nat) : List Nat → List Nat
  | [] => []
  | w :: ws => leBytes wb w ++ wordsToBytesLE wb ws

/-- The five algorithm type codes fixed by the leaf-class constructors in
`src/lsh.h` (`0x000001C`, `0x0000020`, `0x0010030`, `0x0010040`,
`0x0010020`). -/
def recognizedAlgTypes : List Nat :=
  [0x000001C, 0x0000020, 0x0010030, 0x0010040, 0x0010020]

/-- Modelled from the spec: `restart(algorithm_id, digest_size)`
(section 6) re-initializes the state to the variant IV, clears buffers and
the length counter, and fails with `ConfigurationError` when the
algorithm id is unrecognized or the digest size exceeds the variant's
maximum.  The C++ `Restart()` body is in the absent implementation file;
`V` supplies the externally specified IV data for the algorithm id. -/
def Restart (V : Variant) (algType digestSize : Nat) : Except HashError HashState :=
  if algType ∈ recognizedAlgTypes then
    if digestSize ≤ V.maxDigestSize then
      Except.ok { cv := V.iv, buffer := [], bitLen := 0, blocks := 0,
                  finalized := false, algType := algType, digestSize := digestSize }
    else Except.error HashError.ConfigurationError
  else Except.error HashError.ConfigurationError

/-- Modelled from the spec: the block-draining loop of the streaming
buffer manager (section 4.2): consume as many full blocks as possible,
each immediately transformed, and return the new chaining value, the
transform-invocation count and the leftover tail. -/
def absorbBlocks (V : Variant) (cv : List Nat) (k : Nat) (data : List Nat) :
    List Nat × Nat × List Nat :=
  if h : V.blockSize ≤ data.length then
    absorbBlocks V (V.compress cv (data.take V.blockSize)) (k + 1) (data.drop V.blockSize)
  else
    (cv, k, data)
termination_by data.length
decreasing_by
  simp only [List.length_drop]
  exact Nat.sub_lt (Nat.lt_of_lt_of_le V.blockSize_pos h) V.blockSize_pos

/-- Modelled from the spec: `Update` absorbs bytes (section 4.2): the
pending buffer is topped up and, together with the new input, drained one
full block at a time through the transform core; the leftover tail stays
in the buffer, and the 32-bit bit counter advances by the input bit
length regardless of buffering boundaries. -/
def absorb (V : Variant) (st : HashState) (data : List Nat) : HashState :=
  { cv := (absorbBlocks V st.cv st.blocks (st.buffer ++ data)).1,
    buffer := (absorbBlocks V st.cv st.blocks (st.buffer ++ data)).2.2,
    bitLen := (st.bitLen + 8 * data.length) % 2 ^ 32,
    blocks := (absorbBlocks V st.cv st.blocks (st.buffer ++ data)).2.1,
    finalized := st.finalized, algType := st.algType, digestSize := st.digestSize }

/-- Modelled from the spec: the API-level `Update` (sections 4.2, 7):
no failure mode for byte input, but calling it after `finalize` without an
intervening `restart` is rejected with `MisuseError`. -/
def Update (V : Variant) (st : HashState) (data : List Nat) : Except HashError HashState :=
  if st.finalized then Except.error HashError.MisuseError
  else Except.ok (absorb V st data)

/-- A sequence of `Update` calls delivering consecutive chunks. -/
def UpdateSeq (V : Variant) (st : HashState) : List (List Nat) → Except HashError HashState
  | [] => Except.ok st
  | c :: cs => match Update V st c with
    | Except.ok st' => UpdateSeq V st' cs
    | Except.error e => Except.error e

/-- Modelled from the spec: the padding rule of section 4.3 — a known
marker byte (0x80) followed by zero bytes filling the pending buffer to
the block boundary.  The exact marker is specification-defined external
data; its value does not affect the properties proved here. -/
def padBlock (bs : Nat) (buf : List Nat) : List Nat :=
  buf ++ 0x80 :: List.replicate (bs - buf.length - 1) 0

/-- Modelled from the spec: the unguarded finalization step
(section 4.3): pad the pending block, run the transform core on it, apply
the finalization fold, serialize the folded state little-endian and take
the requested number of bytes; the state becomes finalized. -/
def finalizeImpl (V : Variant) (st : HashState) (size : Nat) : List Nat × HashState :=
  let cv2 := V.compress st.cv (padBlock V.blockSize st.buffer)
  ((wordsToBytesLE V.wordBytes (V.fold cv2)).take size,
   { cv := cv2, buffer := [], bitLen := st.bitLen, blocks := st.blocks + 1,
     finalized := true, algType := st.algType, digestSize := st.digestSize })

/-- Modelled from the spec: `TruncatedFinal` (sections 4.3, 6, 7): a
one-shot, state-consuming operation; a finalized engine must be restarted
before any further use (`MisuseError` otherwise), and requesting more
than the configured digest size is a `ConfigurationError`. -/
def TruncatedFinal (V : Variant) (st : HashState) (size : Nat) :
    Except HashError (List Nat × HashState) :=
  if st.finalized then Except.error HashError.MisuseError
  else if st.digestSize < size then Except.error HashError.ConfigurationError
  else Except.ok (finalizeImpl V st size)

/-- `DigestSize()` of `src/lsh.h`: returns the constructor-fixed
`m_digestSize`. -/
def DigestSize (st : HashState) : Nat := st.digestSize

/-- `LSH256_Base::BLOCKSIZE` of `src/lsh.h` (128 bytes). -/
def LSH256_Base.BLOCKSIZE : Nat := 128

/-- `LSH512_Base::BLOCKSIZE` of `src/lsh.h` (256 bytes). -/
def LSH512_Base.BLOCKSIZE : Nat := 256

/-- `LSH224::DIGESTSIZE` of `src/lsh.h`. -/
def LSH224.DIGESTSIZE : Nat := 28

/-- `LSH224`'s algorithm type code `LSH_TYPE_224` (`src/lsh.h` line 78). -/
def LSH224.algType : Nat := 0x000001C

/-- `LSH256::DIGESTSIZE` of `src/lsh.h`. -/
def LSH256.DIGESTSIZE : Nat := 32

/-- `LSH256`'s algorithm type code `LSH_TYPE_256` (`src/lsh.h` line 101). -/
def LSH256.algType : Nat := 0x0000020

/-- `LSH384::DIGESTSIZE` of `src/lsh.h`. -/
def LSH384.DIGESTSIZE : Nat := 48

/-- `LSH384`'s algorithm type code `LSH_TYPE_384` (`src/lsh.h` line 164). -/
def LSH384.algType : Nat := 0x0010030

/-- `LSH512::DIGESTSIZE` of `src/lsh.h`. -/
def LSH512.DIGESTSIZE : Nat := 64

/-- `LSH512`'s algorithm type code `LSH_TYPE_512` (`src/lsh.h` line 187). -/
def LSH512.algType : Nat := 0x0010040

/-- `LSH512_256::DIGESTSIZE` of `src/lsh.h`. -/
def LSH512_256.DIGESTSIZE : Nat := 32

/-- `LSH512_256`'s algorithm type code `LSH_TYPE_512_256` (`src/lsh.h`
line 210). -/
def LSH512_256.algType : Nat := 0x0010020

/-- The `LSH224()` constructor of `src/lsh.h`: fixes the algorithm type
and digest size and invokes `Restart()`. -/
def LSH224.construct (V : Variant) : Except HashError HashState :=
  Restart V LSH224.algType LSH224.DIGESTSIZE

/-- The `LSH256()` constructor of `src/lsh.h`. -/
def LSH256.construct (V : Variant) : Except HashError HashState :=
  Restart V LSH256.algType LSH256.DIGESTSIZE

/-- The `LSH384()` constructor of `src/lsh.h`. -/
def LSH384.construct (V : Variant) : Except HashError HashState :=
  Restart V LSH384.algType LSH384.DIGESTSIZE

/-- The `LSH512()` constructor of `src/lsh.h`. -/
def LSH512.construct (V : Variant) : Except HashError HashState :=
  Restart V LSH512.algType LSH512.DIGESTSIZE

/-- The `LSH512_256()` constructor of `src/lsh.h`. -/
def LSH512_256.construct (V : Variant) : Except HashError HashState :=
  Restart V LSH512_256.algType LSH512_256.DIGESTSIZE

end CryptoPP

namespace CryptoPP

/-- Unfolding `absorbBlocks` when the data holds no full block. -/
theorem absorbBlocks_of_lt (V : Variant) (cv : List Nat) (k : Nat) (data : List Nat)
    (h : data.length < V.blockSize) : absorbBlocks V cv k data = (cv, k, data) := by
  rw [absorbBlocks]
  simp [Nat.not_le.mpr h]

/-- Unfolding `absorbBlocks` when at least one full block is available. -/
theorem absorbBlocks_of_le (V : Variant) (cv : List Nat) (k : Nat) (data : List Nat)
    (h : V.blockSize ≤ data.length) :
    absorbBlocks V cv k data =
      absorbBlocks V (V.compress cv (data.take V.blockSize)) (k + 1)
        (data.drop V.blockSize) := by
  rw [absorbBlocks]
  simp [h]

/-- Draining the blocks of `l ++ m` is draining those of `l`, then those of
the leftover tail of `l` followed by `m` (fuel-indexed form). -/
theorem absorbBlocks_append_aux (V : Variant) :
    ∀ n, ∀ l m cv k, l.length ≤ n →
      absorbBlocks V cv k (l ++ m) =
        absorbBlocks V (absorbBlocks V cv k l).1 (absorbBlocks V cv k l).2.1
          ((absorbBlocks V cv k l).2.2 ++ m) := by
  intro n
  induction n with
  | zero =>
    intro l m cv k hl
    have hnil : l = [] := List.eq_nil_of_length_eq_zero (Nat.le_zero.mp hl)
    subst hnil
    rw [absorbBlocks_of_lt V cv k [] (by simpa using V.blockSize_pos)]
  | succ n ih =>
    intro l m cv k hl
    by_cases h : V.blockSize ≤ l.length
    · have h2 : V.blockSize ≤ (l ++ m).length := by
        simp only [List.length_append]; omega
      rw [absorbBlocks_of_le V cv k (l ++ m) h2, absorbBlocks_of_le V cv k l h,
        List.take_append_of_le_length h, List.drop_append_of_le_length h]
      exact ih (l.drop V.blockSize) m _ _
        (by simp only [List.length_drop]; have := V.blockSize_pos; omega)
    · rw [absorbBlocks_of_lt V cv k l (Nat.not_le.mp h)]

/-- Draining the blocks of `l ++ m` factors through draining `l` first. -/
theorem absorbBlocks_append (V : Variant) (l m cv : List Nat) (k : Nat) :
    absorbBlocks V cv k (l ++ m) =
      absorbBlocks V (absorbBlocks V cv k l).1 (absorbBlocks V cv k l).2.1
        ((absorbBlocks V cv k l).2.2 ++ m) :=
  absorbBlocks_append_aux V l.length l m cv k le_rfl

/-- The drain loop performs exactly one transform per full block and leaves
the remainder in the tail (fuel-indexed form). -/
theorem absorbBlocks_count_aux (V : Variant) :
    ∀ n, ∀ l cv k, l.length ≤ n →
      (absorbBlocks V cv k l).2.1 = k + l.length / V.blockSize ∧
      (absorbBlocks V cv k l).2.2.length = l.length % V.blockSize := by
  intro n
  induction n with
  | zero =>
    intro l cv k hl
    have hnil : l = [] := List.eq_nil_of_length_eq_zero (Nat.le_zero.mp hl)
    subst hnil
    rw [absorbBlocks_of_lt V cv k [] (by simpa using V.blockSize_pos)]
    simp
  | succ n ih =>
    intro l cv k hl
    by_cases h : V.blockSize ≤ l.length
    · rw [absorbBlocks_of_le V cv k l h]
      have hlen : (l.drop V.blockSize).length = l.length - V.blockSize := by
        simp
      have hrec := ih (l.drop V.blockSize) (V.compress cv (l.take V.blockSize)) (k + 1)
        (by have := V.blockSize_pos; omega)
      rw [hlen] at hrec
      refine ⟨?_, ?_⟩
      · rw [hrec.1, Nat.div_eq_sub_div V.blockSize_pos h]
        omega
      · rw [hrec.2, ← Nat.mod_eq_sub_mod h]
    · have h2 := Nat.not_le.mp h
      rw [absorbBlocks_of_lt V cv k l h2]
      exact ⟨by simp [Nat.div_eq_of_lt h2], by simp [Nat.mod_eq_of_lt h2]⟩

/-- The drain loop performs exactly one transform per full block and leaves
the remainder in the tail. -/
theorem absorbBlocks_count (V : Variant) (l cv : List Nat) (k : Nat) :
    (absorbBlocks V cv k l).2.1 = k + l.length / V.blockSize ∧
    (absorbBlocks V cv k l).2.2.length = l.length % V.blockSize :=
  absorbBlocks_count_aux V l.length l cv k le_rfl

/-- Well-formedness of an engine state: the pending buffer holds strictly
less than one block (spec section 3 invariant) and the bit counter fits in
its 32-bit word. -/
def WF (V : Variant) (st : HashState) : Prop :=
  st.buffer.length < V.blockSize ∧ st.bitLen < 2 ^ 32

/-- A freshly restarted state is well-formed. -/
theorem Restart_WF (V : Variant) (a d : Nat) (st : HashState)
    (h : Restart V a d = Except.ok st) : WF V st := by
  unfold Restart at h
  split at h
  · split at h
    · cases h
      exact ⟨V.blockSize_pos, by norm_num⟩
    · cases h
  · cases h

/-- Eliminating a successful `Restart`: the produced state and the
configuration checks that must have passed. -/
theorem Restart_ok (V : Variant) (a d : Nat) (st : HashState)
    (h : Restart V a d = Except.ok st) :
    st = { cv := V.iv, buffer := [], bitLen := 0, blocks := 0,
           finalized := false, algType := a, digestSize := d } ∧
    a ∈ recognizedAlgTypes ∧ d ≤ V.maxDigestSize := by
  unfold Restart at h
  split at h
  · split at h
    · cases h
      exact ⟨rfl, by assumption, by assumption⟩
    · cases h
  · cases h

/-- `absorb` preserves well-formedness. -/
theorem absorb_WF (V : Variant) (st : HashState) (data : List Nat) :
    WF V (absorb V st data) := by
  refine ⟨?_, ?_⟩
  · show (absorbBlocks V st.cv st.blocks (st.buffer ++ data)).2.2.length < V.blockSize
    rw [(absorbBlocks_count V (st.buffer ++ data) st.cv st.blocks).2]
    exact Nat.mod_lt _ V.blockSize_pos
  · exact Nat.mod_lt _ (by norm_num)

/-- Absorbing nothing leaves a well-formed state unchanged. -/
theorem absorb_nil (V : Variant) (st : HashState) (h : WF V st) :
    absorb V st [] = st := by
  obtain ⟨hbuf, hbit⟩ := h
  unfold absorb
  rw [List.append_nil, absorbBlocks_of_lt V st.cv st.blocks st.buffer hbuf]
  have hm : (st.bitLen + 8 * ([] : List Nat).length) % 2 ^ 32 = st.bitLen := by
    simpa using Nat.mod_eq_of_lt hbit
  rw [hm]

/-- Absorbing `a ++ b` equals absorbing `a` then `b`: the buffering layer
composes over concatenation. -/
theorem absorb_append (V : Variant) (st : HashState) (a b : List Nat) :
    absorb V (absorb V st a) b = absorb V st (a ++ b) := by
  simp only [absorb]
  rw [← List.append_assoc, absorbBlocks_append V (st.buffer ++ a) b st.cv st.blocks]
  have hb : ((st.bitLen + 8 * a.length) % 2 ^ 32 + 8 * b.length) % 2 ^ 32
      = (st.bitLen + 8 * (a ++ b).length) % 2 ^ 32 := by
    rw [Nat.mod_add_mod, List.length_append]
    congr 1
    ring
  rw [hb]

/-- `absorb` does not change the lifecycle flag nor the configuration. -/
theorem absorb_fields (V : Variant) (st : HashState) (data : List Nat) :
    (absorb V st data).finalized = st.finalized ∧
    (absorb V st data).algType = st.algType ∧
    (absorb V st data).digestSize = st.digestSize :=
  ⟨rfl, rfl, rfl⟩

/-- A sequence of chunked `Update` calls on a live, well-formed state all
succeed and reach the state of one `absorb` of the concatenation. -/
theorem UpdateSeq_eq_absorb (V : Variant) :
    ∀ (cs : List (List Nat)) (st : HashState), st.finalized = false → WF V st →
      UpdateSeq V st cs = Except.ok (absorb V st cs.flatten) := by
  intro cs
  induction cs with
  | nil =>
    intro st hfin hwf
    rw [show ([] : List (List Nat)).flatten = [] from rfl, absorb_nil V st hwf]
    rfl
  | cons c cs ih =>
    intro st hfin _hwf
    rw [show UpdateSeq V st (c :: cs) = UpdateSeq V (absorb V st c) cs from by
      simp [UpdateSeq, Update, hfin]]
    rw [ih (absorb V st c) ((absorb_fields V st c).1.trans hfin) (absorb_WF V st c)]
    rw [absorb_append, List.flatten_cons]

end CryptoPP

namespace CryptoPP

/-- `leBytes` emits exactly the requested number of bytes. -/
theorem leBytes_length (n w : Nat) : (leBytes n w).length = n := by
  induction n generalizing w with
  | zero => rfl
  | succ n ih => simp [leBytes, ih]

/-- Serializing a word array emits `wordBytes` bytes per word. -/
theorem wordsToBytesLE_length (wb : Nat) (ws : List Nat) :
    (wordsToBytesLE wb ws).length = wb * ws.length := by
  induction ws with
  | nil => simp [wordsToBytesLE]
  | cons w ws ih =>
    simp [wordsToBytesLE, leBytes_length, ih]
    ring

/-- `TruncatedFinal` succeeds on a live state when the requested size does
not exceed the configured digest size. -/
theorem TruncatedFinal_ok (V : Variant) (st : HashState) (size : Nat)
    (hfin : st.finalized = false) (hsz : size ≤ st.digestSize) :
    TruncatedFinal V st size = Except.ok (finalizeImpl V st size) := by
  unfold TruncatedFinal
  rw [hfin]
  simp [Nat.not_lt.mpr hsz]

/-- The digest emitted by the finalization step has exactly the requested
length whenever the request fits the folded output width. -/
theorem finalizeImpl_length (V : Variant) (st : HashState) (size : Nat)
    (hsz : size ≤ 8 * V.wordBytes) :
    (finalizeImpl V st size).1.length = size := by
  unfold finalizeImpl
  simp [wordsToBytesLE_length, V.fold_length]
  omega

/-- A successful `Restart` reproduces itself on the state it returns: the
configuration stored in the state re-restarts to the identical state. -/
theorem Restart_idem (V : Variant) (a d : Nat) (st : HashState)
    (h : Restart V a d = Except.ok st) :
    Restart V st.algType st.digestSize = Except.ok st := by
  obtain ⟨hst, -, -⟩ := Restart_ok V a d st h
  subst hst
  exact h

/-- The digest size reported by `DigestSize()` is the one fixed at
construction/restart. -/
theorem construct_digestSize (W : Variant) (aT dS : Nat) (s : HashState)
    (h : Restart W aT dS = Except.ok s) : DigestSize s = dS := by
  obtain ⟨hs, -, -⟩ := Restart_ok W aT dS s h
  rw [hs]
  rfl

/-- `BlockSize()` of `LSH256_Base` in `src/lsh.h`: returns `BLOCKSIZE`. -/
def LSH256_Base.BlockSize : Nat := LSH256_Base.BLOCKSIZE

/-- `BlockSize()` of `LSH512_Base` in `src/lsh.h`: returns `BLOCKSIZE`. -/
def LSH512_Base.BlockSize : Nat := LSH512_Base.BLOCKSIZE

end CryptoPP

namespace CryptoPP

/-- A small concrete variant instantiation used to exercise the generic
theorems on concrete inputs; the transform core and IV are externally
specified data, so any instance satisfying the structural constraints is a
legitimate instantiation point. -/
def testVariant : Variant where
  wordBytes := 4
  blockSize := 4
  blockSize_pos := by norm_num
  iv := List.replicate 16 0
  compress := fun cv _ => cv
  fold := fun _ => List.replicate 8 0
  fold_length := fun _ => by simp
  maxDigestSize := 32
  maxDigest_le := by norm_num

/-- The engine state produced by `Restart testVariant 0x0000020 32`. -/
def tState : HashState :=
  { cv := List.replicate 16 0, buffer := [], bitLen := 0, blocks := 0,
    finalized := false, algType := 0x0000020, digestSize := 32 }

/-- The engine state produced by the `LSH224` constructor over
`testVariant`. -/
def tState224 : HashState :=
  { cv := List.replicate 16 0, buffer := [], bitLen := 0, blocks := 0,
    finalized := false, algType := 0x000001C, digestSize := 28 }

/-- The engine state after finalizing `tState`. -/
def tFinalState : HashState :=
  { cv := List.replicate 16 0, buffer := [], bitLen := 0, blocks := 1,
    finalized := true, algType := 0x0000020, digestSize := 32 }

/-- C1: Chunking independence — from any successfully restarted engine and
for every partition of a byte sequence into consecutive chunks delivered
by successive `Update` calls, the engine reaches the identical final state
as absorbing the whole sequence in a single `Update`, and `TruncatedFinal`
then yields the identical digest. -/
theorem lsh_C1_chunking_independence (V : Variant) (a d : Nat) (st : HashState)
    (cs : List (List Nat)) (h : Restart V a d = Except.ok st) :
    UpdateSeq V st cs = Except.ok (absorb V st cs.flatten) ∧
    ∀ k, (UpdateSeq V st cs).bind (fun s => TruncatedFinal V s k) =
      TruncatedFinal V (absorb V st cs.flatten) k := by
  have hst := (Restart_ok V a d st h).1
  have hfin : st.finalized = false := by rw [hst]
  have h1 := UpdateSeq_eq_absorb V cs st hfin (Restart_WF V a d st h)
  exact ⟨h1, fun k => by rw [h1]; rfl⟩

/-- C1 witness: a concrete four-chunk partition absorbed from a concrete
restarted engine. -/
theorem lsh_C1_witness :
    Restart testVariant 0x0000020 32 = Except.ok tState ∧
    UpdateSeq testVariant tState [[1], [2, 3], [], [4, 5, 6]] =
      Except.ok (absorb testVariant tState [[1], [2, 3], [], [4, 5, 6]].flatten) :=
  ⟨by decide, (lsh_C1_chunking_independence testVariant 0x0000020 32 tState
      [[1], [2, 3], [], [4, 5, 6]] (by decide)).1⟩

/-- C2: Truncation consistency — for every restarted engine, input and
requested size `k` strictly below the configured digest size,
`TruncatedFinal` at `k` returns exactly the first `k` bytes of the digest
that `TruncatedFinal` at the configured digest size returns from the same
engine and input. -/
theorem lsh_C2_truncation_consistency (V : Variant) (a d : Nat) (st : HashState)
    (M : List Nat) (k : Nat) (h : Restart V a d = Except.ok st) (hk : k < d) :
    ∃ full stf,
      TruncatedFinal V (absorb V st M) d = Except.ok (full, stf) ∧
      TruncatedFinal V (absorb V st M) k = Except.ok (full.take k, stf) := by
  obtain ⟨hst, -, -⟩ := Restart_ok V a d st h
  have hd : (absorb V st M).digestSize = d := by rw [hst]; rfl
  have hfin : (absorb V st M).finalized = false := by rw [hst]; rfl
  refine ⟨(finalizeImpl V (absorb V st M) d).1, (finalizeImpl V (absorb V st M) d).2, ?_, ?_⟩
  · exact TruncatedFinal_ok V _ d hfin (le_of_eq hd.symm)
  · rw [TruncatedFinal_ok V _ k hfin (by rw [hd]; exact le_of_lt hk)]
    simp only [finalizeImpl]
    rw [List.take_take, Nat.min_eq_left (le_of_lt hk)]

/-- C2 witness: truncating to 3 bytes versus the full 32-byte digest on a
concrete engine and input. -/
theorem lsh_C2_witness :
    Restart testVariant 0x0000020 32 = Except.ok tState ∧ (3 : Nat) < 32 ∧
    ∃ full stf,
      TruncatedFinal testVariant (absorb testVariant tState [1, 2]) 32 =
        Except.ok (full, stf) ∧
      TruncatedFinal testVariant (absorb testVariant tState [1, 2]) 3 =
        Except.ok (full.take 3, stf) :=
  ⟨by decide, by decide,
    lsh_C2_truncation_consistency testVariant 0x0000020 32 tState [1, 2] 3
      (by decide) (by decide)⟩

/-- C4: Determinism — two runs that each `Restart` with the same variant
data, algorithm id and digest size, absorb the same input and call
`TruncatedFinal` with the same size produce identical results; the
computation depends only on the engine state. -/
theorem lsh_C4_determinism (V : Variant) (a d : Nat) (st₁ st₂ : HashState)
    (M : List Nat) (k : Nat)
    (h₁ : Restart V a d = Except.ok st₁) (h₂ : Restart V a d = Except.ok st₂) :
    TruncatedFinal V (absorb V st₁ M) k = TruncatedFinal V (absorb V st₂ M) k := by
  have h12 : st₁ = st₂ := Except.ok.inj (h₁.symm.trans h₂)
  rw [h12]

/-- C4 witness: two identically restarted engines hashing the same
one-byte input. -/
theorem lsh_C4_witness :
    Restart testVariant 0x0000020 32 = Except.ok tState ∧
    TruncatedFinal testVariant (absorb testVariant tState [7]) 32 =
      TruncatedFinal testVariant (absorb testVariant tState [7]) 32 :=
  ⟨by decide,
    lsh_C4_determinism testVariant 0x0000020 32 tState tState [7] 32
      (by decide) (by decide)⟩

end CryptoPP

namespace CryptoPP

/-- C5: Declared digest sizes — the five leaf classes of `src/lsh.h` fix
digest sizes 28, 32, 48, 64 and 32 bytes, every successfully constructed
instance reports that value through `DigestSize()`, and `TruncatedFinal`
at the full digest size produces exactly that many bytes. -/
theorem lsh_C5_digest_sizes (V : Variant) (a d : Nat) (st : HashState) (M : List Nat)
    (h : Restart V a d = Except.ok st) :
    (LSH224.DIGESTSIZE = 28 ∧ LSH256.DIGESTSIZE = 32 ∧ LSH384.DIGESTSIZE = 48 ∧
      LSH512.DIGESTSIZE = 64 ∧ LSH512_256.DIGESTSIZE = 32) ∧
    (∀ W s, LSH224.construct W = Except.ok s → DigestSize s = 28) ∧
    (∀ W s, LSH256.construct W = Except.ok s → DigestSize s = 32) ∧
    (∀ W s, LSH384.construct W = Except.ok s → DigestSize s = 48) ∧
    (∀ W s, LSH512.construct W = Except.ok s → DigestSize s = 64) ∧
    (∀ W s, LSH512_256.construct W = Except.ok s → DigestSize s = 32) ∧
    (∃ out stf, TruncatedFinal V (absorb V st M) d = Except.ok (out, stf) ∧
      out.length = d) := by
  obtain ⟨hst, -, hle⟩ := Restart_ok V a d st h
  have hd : (absorb V st M).digestSize = d := by rw [hst]; rfl
  have hfin : (absorb V st M).finalized = false := by rw [hst]; rfl
  refine ⟨⟨rfl, rfl, rfl, rfl, rfl⟩,
    fun W s hc => construct_digestSize W _ _ s hc,
    fun W s hc => construct_digestSize W _ _ s hc,
    fun W s hc => construct_digestSize W _ _ s hc,
    fun W s hc => construct_digestSize W _ _ s hc,
    fun W s hc => construct_digestSize W _ _ s hc,
    (finalizeImpl V (absorb V st M) d).1, (finalizeImpl V (absorb V st M) d).2,
    TruncatedFinal_ok V _ d hfin (le_of_eq hd.symm), ?_⟩
  exact finalizeImpl_length V (absorb V st M) d (hle.trans V.maxDigest_le)

/-- C5 witness: a concrete restarted engine whose full-size digest has
exactly the configured 32 bytes. -/
theorem lsh_C5_witness :
    Restart testVariant 0x0000020 32 = Except.ok tState ∧
    (∃ out stf, TruncatedFinal testVariant (absorb testVariant tState [9, 9]) 32 =
        Except.ok (out, stf) ∧ out.length = 32) :=
  ⟨by decide,
    (lsh_C5_digest_sizes testVariant 0x0000020 32 tState [9, 9]
      (by decide)).2.2.2.2.2.2⟩

/-- C6: Declared block sizes — `BlockSize()` returns 128 bytes for the
32-bit family base and 256 bytes for the 64-bit family base of
`src/lsh.h`, and the buffer manager invokes the transform core exactly
once per accumulated full block: after absorbing `M` from a restarted
engine the ghost transform counter is `|M| / blockSize` and the pending
buffer holds the remainder. -/
theorem lsh_C6_block_sizes (V : Variant) (a d : Nat) (st : HashState) (M : List Nat)
    (h : Restart V a d = Except.ok st) :
    (LSH256_Base.BlockSize = 128 ∧ LSH512_Base.BlockSize = 256) ∧
    (absorb V st M).blocks = M.length / V.blockSize ∧
    (absorb V st M).buffer.length = M.length % V.blockSize := by
  obtain ⟨hst, -, -⟩ := Restart_ok V a d st h
  subst hst
  refine ⟨⟨rfl, rfl⟩, ?_, ?_⟩
  · show (absorbBlocks V V.iv 0 ([] ++ M)).2.1 = M.length / V.blockSize
    rw [List.nil_append, (absorbBlocks_count V M V.iv 0).1, Nat.zero_add]
  · show (absorbBlocks V V.iv 0 ([] ++ M)).2.2.length = M.length % V.blockSize
    rw [List.nil_append, (absorbBlocks_count V M V.iv 0).2]

/-- C6 witness: absorbing five bytes into a four-byte-block variant
performs exactly one transform. -/
theorem lsh_C6_witness :
    Restart testVariant 0x0000020 32 = Except.ok tState ∧
    (absorb testVariant tState [1, 2, 3, 4, 5]).blocks =
      [1, 2, 3, 4, 5].length / testVariant.blockSize :=
  ⟨by decide,
    (lsh_C6_block_sizes testVariant 0x0000020 32 tState [1, 2, 3, 4, 5]
      (by decide)).2.1⟩

/-- C7: Misuse rejection — any state returned by a successful
`TruncatedFinal` rejects every subsequent `Update` (no intervening
`Restart`) with `MisuseError`; the input is never silently absorbed. -/
theorem lsh_C7_misuse_rejection (V : Variant) (st : HashState) (size : Nat)
    (out : List Nat) (stf : HashState)
    (h : TruncatedFinal V st size = Except.ok (out, stf)) :
    ∀ data, Update V stf data = Except.error HashError.MisuseError := by
  have hfin : stf.finalized = true := by
    unfold TruncatedFinal at h
    split at h
    · cases h
    · split at h
      · cases h
      · have h2 := Except.ok.inj h
        have h3 : (finalizeImpl V st size).2 = stf := by rw [h2]
        rw [← h3]
        rfl
  intro data
  unfold Update
  rw [hfin]
  rfl

/-- C7 witness: finalizing a concrete engine and then attempting a further
`Update`. -/
theorem lsh_C7_witness :
    TruncatedFinal testVariant tState 5 = Except.ok (List.replicate 5 0, tFinalState) ∧
    Update testVariant tFinalState [1] = Except.error HashError.MisuseError :=
  ⟨by decide,
    lsh_C7_misuse_rejection testVariant tState 5 (List.replicate 5 0) tFinalState
      (by decide) [1]⟩

/-- C8: Restart configuration checking — `Restart` fails with
`ConfigurationError` exactly when the algorithm id is unrecognized or the
requested digest size exceeds the variant's maximum, and streaming
`Update` calls never raise `ConfigurationError`. -/
theorem lsh_C8_restart_config (V : Variant) (a d : Nat) (st : HashState)
    (data : List Nat) :
    (Restart V a d = Except.error HashError.ConfigurationError ↔
      a ∉ recognizedAlgTypes ∨ V.maxDigestSize < d) ∧
    Update V st data ≠ Except.error HashError.ConfigurationError := by
  constructor
  · unfold Restart
    by_cases h1 : a ∈ recognizedAlgTypes
    · by_cases h2 : d ≤ V.maxDigestSize
      · simp [h1, h2, Nat.not_lt.mpr h2]
      · simp [h1, h2, Nat.not_le.mp h2]
    · simp [h1]
  · intro hc
    unfold Update at hc
    split at hc
    · exact absurd (Except.error.inj hc) (by decide)
    · cases hc

end CryptoPP

namespace CryptoPP

/-- C9: Length-counter representability — the running count of absorbed
input lives in the single 32-bit word `m_remainingBitLength` counting
bits: after absorbing `M` from a restarted engine it equals the total bit
length `8·|M|` reduced modulo `2^32` and always fits 32 bits, and
extending the stream by `2^29` further bytes records the identical
counter value, so total byte counts of `2^29` or more are not
representable distinctly. -/
theorem lsh_C9_length_counter (V : Variant) (a d : Nat) (st : HashState)
    (M : List Nat) (h : Restart V a d = Except.ok st) :
    (absorb V st M).bitLen = 8 * M.length % 2 ^ 32 ∧
    (absorb V st M).bitLen < 2 ^ 32 ∧
    (absorb V st (M ++ List.replicate (2 ^ 29) 0)).bitLen = (absorb V st M).bitLen := by
  obtain ⟨hst, -, -⟩ := Restart_ok V a d st h
  subst hst
  refine ⟨?_, ?_, ?_⟩
  · simp [absorb]
  · simp only [absorb]
    exact Nat.mod_lt _ (by norm_num)
  · simp only [absorb, List.length_append, List.length_replicate]
    have h29 : (2 : Nat) ^ 29 = 536870912 := by norm_num
    have h32 : (2 : Nat) ^ 32 = 4294967296 := by norm_num
    rw [h29, h32]
    omega

/-- C9 witness: the counter after absorbing a three-byte input from a
concrete restarted engine. -/
theorem lsh_C9_witness :
    Restart testVariant 0x0000020 32 = Except.ok tState ∧
    (absorb testVariant tState [5, 6, 7]).bitLen = 8 * [5, 6, 7].length % 2 ^ 32 :=
  ⟨by decide,
    (lsh_C9_length_counter testVariant 0x0000020 32 tState [5, 6, 7] (by decide)).1⟩

/-- C10: Every concrete constructor of `src/lsh.h` fixes its algorithm
type and digest size and invokes `Restart()`, so a freshly constructed
engine is already in the restarted state: an explicit `Restart` with the
stored configuration reproduces the identical state, and any subsequent
`Update`/`TruncatedFinal` sequence therefore yields the identical
digest. -/
theorem lsh_C10_fresh_is_restarted (V : Variant) :
    (∀ st, LSH224.construct V = Except.ok st →
      Restart V st.algType st.digestSize = Except.ok st) ∧
    (∀ st, LSH256.construct V = Except.ok st →
      Restart V st.algType st.digestSize = Except.ok st) ∧
    (∀ st, LSH384.construct V = Except.ok st →
      Restart V st.algType st.digestSize = Except.ok st) ∧
    (∀ st, LSH512.construct V = Except.ok st →
      Restart V st.algType st.digestSize = Except.ok st) ∧
    (∀ st, LSH512_256.construct V = Except.ok st →
      Restart V st.algType st.digestSize = Except.ok st) ∧
    (∀ a d st st2, Restart V a d = Except.ok st →
      Restart V st.algType st.digestSize = Except.ok st2 →
      ∀ M k, TruncatedFinal V (absorb V st2 M) k =
        TruncatedFinal V (absorb V st M) k) := by
  refine ⟨fun st h => Restart_idem V _ _ st h, fun st h => Restart_idem V _ _ st h,
    fun st h => Restart_idem V _ _ st h, fun st h => Restart_idem V _ _ st h,
    fun st h => Restart_idem V _ _ st h, ?_⟩
  intro a d st st2 h1 h2 M k
  have h12 : st = st2 := Except.ok.inj ((Restart_idem V a d st h1).symm.trans h2)
  rw [← h12]

/-- C10 witness: the `LSH224` constructor over a concrete variant, and
the explicit `Restart` reproducing the constructed state. -/
theorem lsh_C10_witness :
    LSH224.construct testVariant = Except.ok tState224 ∧
    Restart testVariant tState224.algType tState224.digestSize = Except.ok tState224 :=
  ⟨by decide, (lsh_C10_fresh_is_restarted testVariant).1 tState224 (by decide)⟩

end CryptoPP

namespace CryptoPP

/-- C8 witness: the configuration check on a concrete unrecognized
algorithm id and a concrete streaming call. -/
theorem lsh_C8_witness :
    (Restart testVariant 7 32 = Except.error HashError.ConfigurationError ↔
      7 ∉ recognizedAlgTypes ∨ testVariant.maxDigestSize < 32) ∧
    Update testVariant tState [1] ≠ Except.error HashError.ConfigurationError :=
  lsh_C8_restart_config testVariant 7 32 tState [1]

end CryptoPP
